import Mathlib

/-!
Verification of the severity/parsing/aggregation core of check_megaraid.py,
a Nagios-style health probe for MegaRAID controllers.  Pure functions of the
script are shallowly embedded as Lean definitions; external subprocess output
is passed in as explicit text / token arguments.  Python `int` values that are
always non-negative in the program (Nagios codes, slot numbers, counts) are
modelled as `ℕ`; Python strings as `String`, manipulated through their
character lists so that every definition is kernel-executable.

The file is organised as: all definitions first, then all theorems.
-/

/-! ## Definitions -/

/-! ### Severity lattice (lines 18-61 of check_megaraid.py) -/

def NAGIOS_OK : ℕ := 0
def NAGIOS_WARNING : ℕ := 1
def NAGIOS_CRITICAL : ℕ := 2
def NAGIOS_UNKNOWN : ℕ := 3

/-- The fixed precedence tuple NAGIOS_ORDER = (CR, WA, UK, OK). -/
def NAGIOS_ORDER : List ℕ := [NAGIOS_CRITICAL, NAGIOS_WARNING, NAGIOS_UNKNOWN, NAGIOS_OK]

/-- Translation of `handle_nagios_codes(nagios_code_original, nagios_code_new)`:
the loop scans NAGIOS_ORDER and returns the first code that is a member of
the two-element set, the accumulator starting at 0 (returned when nothing
matches, which cannot happen for genuine Nagios codes). -/
def handle_nagios_codes (nagios_code_original nagios_code_new : ℕ) : ℕ :=
  (NAGIOS_ORDER.find? (fun c => c == nagios_code_new || c == nagios_code_original)).getD 0

/-- The four legal severities. -/
def severities : Finset ℕ := {NAGIOS_OK, NAGIOS_WARNING, NAGIOS_CRITICAL, NAGIOS_UNKNOWN}

/-- Rank of a severity in the precedence order OK < UK < WA < CR
(the script's criticality order, comment on lines 52-55). -/
def sevRank (c : ℕ) : ℕ :=
  if c = NAGIOS_CRITICAL then 3
  else if c = NAGIOS_WARNING then 2
  else if c = NAGIOS_UNKNOWN then 1
  else 0

/-- a is at most as severe as b. -/
def sevLE (a b : ℕ) : Prop := sevRank a ≤ sevRank b

instance (a b : ℕ) : Decidable (sevLE a b) := by
  unfold sevLE
  infer_instance

/-- Specification-side combine, written from the spec's words: return
whichever of a, b appears first in the precedence list [CR, WA, UK, OK]. -/
def first_in_precedence (a b : ℕ) : ℕ :=
  (NAGIOS_ORDER.find? (fun c => c == a || c == b)).getD NAGIOS_OK

/-! ### Aggregator (handle_final_state, lines 462-482; summary loop, lines 643-655) -/

/-- Translation of `handle_final_state(hf_ecode, hf_state)` where the state
tuple is (facet exit code, tag, CRITICAL id list, WARNING id list).  The
Python builds `hf_out_final` incrementally and empties it for a clean
foreign-configuration ("FC") facet; the returned string already includes
the trailing `hf_end_space`. -/
def handle_final_state (hf_ecode : ℕ) (hf_state : ℕ × String × String × String) :
    ℕ × String :=
  let hf_ecode_specific := hf_state.1
  let hf_out_tag := hf_state.2.1
  let hf_out := hf_state.2.2.1
  let hf_out_wa := hf_state.2.2.2
  let hf_ecode_final := handle_nagios_codes hf_ecode hf_ecode_specific
  let base := hf_out_tag ++ ":"
  let base := if hf_out ≠ "" then base ++ " CR-" ++ hf_out else base
  let base := if hf_out_wa ≠ "" then base ++ " WA-" ++ hf_out_wa else base
  let out_str :=
    if hf_ecode_specific = NAGIOS_OK then
      if hf_out_tag = "FC" then "" else base ++ " OK;" ++ " "
    else base ++ " "
  (hf_ecode_final, out_str)

/-- The `for specific_state in (...)` loop of the driver: fold
handle_final_state over the (ordered) facet tuples, accumulating EXIT_CODE
(starting from the initial NAGIOS_OK) and EXIT_STATE. -/
def facet_fold (facets : List (ℕ × String × String × String)) : ℕ × String :=
  facets.foldl
    (fun st f =>
      let r := handle_final_state st.1 f
      (r.1, st.2 ++ r.2))
    (NAGIOS_OK, "")

/-- Specification-side summary contribution of one facet, written from the
claim's words: an OK facet contributes its tag followed by the literal
"OK;" except the foreign-configuration facet which contributes nothing; a
facet with findings contributes its tag followed by the "CR-"-prefixed
and/or "WA-"-prefixed id lists when non-empty. -/
def claim_summary (sev : ℕ) (tag out out_wa : String) : String :=
  if sev = NAGIOS_OK then
    if tag = "FC" then "" else tag ++ ": OK; "
  else
    tag ++ ":" ++ (if out ≠ "" then " CR-" ++ out else "")
      ++ (if out_wa ≠ "" then " WA-" ++ out_wa else "") ++ " "

/-! ### Report-section extractor (find_relevant_lines, lines 111-129) -/

/-- Split a character list at every newline, keeping empty segments:
the behaviour of Python str.split('\n'). -/
def splitNlChars : List Char → List (List Char)
  | [] => [[]]
  | c :: cs =>
    if c = '\n' then [] :: splitNlChars cs
    else
      match splitNlChars cs with
      | [] => [[c]]
      | s :: ss => (c :: s) :: ss

/-- Python string_to_search.split('\n'). -/
def splitNl (s : String) : List String := (splitNlChars s.data).map (fun l => ⟨l⟩)

/-- The separator test match('-----+$', line): the line consists of dashes
only and has at least five of them. -/
def isSep (line : String) : Bool :=
  decide (5 ≤ line.data.length) && line.data.all (fun c => c == '-')

/-- One iteration of the find_relevant_lines loop.  The state is
(broke out of the loop, start_match, start_parse, relevant_lines); Python's
`break` is modelled by the first flag, which freezes the state.  The header
regex match (re.match with IGNORECASE) is abstracted as a per-line boolean
predicate because the header pattern is a parameter of the function. -/
def frl_step (hdr : String → Bool) (st : Bool × Bool × Bool × List String)
    (line : String) : Bool × Bool × Bool × List String :=
  let done := st.1
  let start_match := st.2.1
  let start_parse := st.2.2.1
  let acc := st.2.2.2
  if done then st
  else if !start_match && hdr line then (false, true, start_parse, acc)
  else if start_match then
    if isSep line then
      if !start_parse then (false, start_match, true, acc)
      else (true, start_match, start_parse, acc)
    else (false, start_match, start_parse, acc ++ [line])
  else st

/-- Translation of `find_relevant_lines(string_to_search, header)`. -/
def find_relevant_lines (string_to_search : String) (hdr : String → Bool) :
    List String :=
  ((splitNl string_to_search).foldl (frl_step hdr) (false, false, false, [])).2.2.2

/-- Specification-side body collector: after the header line, gather every
non-separator line; the first separator flips the flag, the second stops
collection. -/
def collectBody : Bool → List String → List String
  | _, [] => []
  | start_parse, l :: ls =>
    if isSep l then
      if start_parse then [] else collectBody true ls
    else l :: collectBody start_parse ls

/-- Specification-side description of what the extractor really returns:
drop everything up to and including the first header-matching line, then
collect with collectBody. -/
def relevantSpec (hdr : String → Bool) (ls : List String) : List String :=
  collectBody false ((ls.dropWhile (fun l => !(hdr l))).drop 1)

/-! ### Physical-drive role classification (get_drives, lines 398-424) -/

/-- Case-insensitive full-token match: for a purely alphabetic tag,
re.match(tag-anchored-to-the-end, token, IGNORECASE) is case-insensitive
string equality on the whitespace-free token. -/
def ciEq (s t : String) : Bool :=
  s.data.map Char.toLower == t.data.map Char.toLower

/-- The role tags recognised by the if/elif chain of get_drives. -/
def known_roles : List String :=
  ["GHS", "DHS", "Onln", "JBOD", "UGood", "UGShld", "Cpybck", "Rbld"]

/-- Severity contribution of the role/state tag chain of get_drives (lines
398-424), applied to the pd_state already accumulated from the
threshold checks.  The chain also builds the human-readable drive line and
the hotspare flag, which do not influence the severity and are elided. -/
def pd_role_severity (ignore_ugood : Bool) (pd_state : ℕ) (role : String) : ℕ :=
  if ciEq role "GHS" then pd_state
  else if ciEq role "DHS" then pd_state
  else if ciEq role "Onln" then pd_state
  else if ciEq role "JBOD" then pd_state
  else if ciEq role "UGood" then
    if !ignore_ugood then handle_nagios_codes pd_state NAGIOS_WARNING else pd_state
  else if ciEq role "UGShld" then
    if !ignore_ugood then handle_nagios_codes pd_state NAGIOS_WARNING else pd_state
  else if ciEq role "Cpybck" then handle_nagios_codes pd_state NAGIOS_WARNING
  else if ciEq role "Rbld" then handle_nagios_codes pd_state NAGIOS_WARNING
  else handle_nagios_codes pd_state NAGIOS_CRITICAL

/-! ### Enclosure checker (get_enclosures, lines 149-175) and the
drive-count cross-check (driver, lines 622-626) -/

/-- The ASCII whitespace class of Python's regex \s. -/
def isWs (c : Char) : Bool :=
  c == ' ' || c == '\t' || c == '\n' || c == '\r' || c == '\x0b' || c == '\x0c'

/-- Split a character list at every whitespace character. -/
def splitWsChars : List Char → List (List Char)
  | [] => [[]]
  | c :: cs =>
    if isWs c then [] :: splitWsChars cs
    else
      match splitWsChars cs with
      | [] => [[c]]
      | s :: ss => (c :: s) :: ss

/-- Python re.split on whitespace runs applied to a stripped string: split
and drop the empty pieces (collapsing runs; stripping first makes no
further difference).  On an all-whitespace line Python would return ['']
where this returns []; such degenerate rows are outside the claims and
would crash the script on the subsequent [1] index anyway. -/
def splitWs (s : String) : List String :=
  ((splitWsChars s.data).map (fun l => (⟨l⟩ : String))).filter (fun t => !(t == ""))

/-- Python int() on the digit-only tokens of storcli tables.  On any other
token Python raises ValueError and the probe dies; that failure mode is
outside the claims' scope and is modelled by the 0 default. -/
def parseNat (s : String) : ℕ :=
  if s.data ≠ [] ∧ s.data.all Char.isDigit then
    s.data.foldl (fun n c => 10 * n + (c.toNat - '0'.toNat)) 0
  else 0

/-- Accumulator of the get_enclosures row loop. -/
structure EncAcc where
  ecode : ℕ
  out : String
  out_long : String
  enclosures : List (String × ℕ × ℕ)

/-- One iteration of the get_enclosures row loop (lines 161-172): tokenize
the row, flag a state other than "OK" (plain string inequality in the
source) as CRITICAL, and append the tuple
(enclosure_list[0], int(enclosure_list[2]), int(enclosure_list[3])), i.e.
(EID, Slots column, PD column). -/
def get_enclosures_step (enc_controller : String) (acc : EncAcc)
    (enclosure_line : String) : EncAcc :=
  let enclosure_list := splitWs enclosure_line
  let eid := enclosure_list.getD 0 ""
  let state := enclosure_list.getD 1 ""
  let acc1 :=
    if "OK" ≠ state then
      { acc with
          ecode := handle_nagios_codes acc.ecode NAGIOS_CRITICAL,
          out_long := acc.out_long ++ "CR: Enclosure /c" ++ enc_controller
            ++ "/e" ++ eid ++ "\n",
          out := acc.out ++ "/c" ++ enc_controller ++ "/e" ++ eid ++ ";" }
    else
      { acc with
          out_long := acc.out_long ++ "OK: Enclosure /c" ++ enc_controller
            ++ "/e" ++ eid ++ "\n" }
  { acc1 with
      enclosures := acc1.enclosures
        ++ [(eid, parseNat (enclosure_list.getD 2 ""),
             parseNat (enclosure_list.getD 3 ""))] }

/-- Translation of get_enclosures; the table body lines (the output of
find_relevant_lines on the storcli eall text, external input here) are a
parameter.  Returns (exit code, enclosure tuples, CRITICAL ids, long
output). -/
def get_enclosures (enc_controller : String) (ge_lines : List String) :
    ℕ × List (String × ℕ × ℕ) × String × String :=
  let acc := ge_lines.foldl (get_enclosures_step enc_controller) ⟨NAGIOS_OK, "", "", []⟩
  (acc.ecode, acc.enclosures, acc.out, acc.out_long)

/-- Translation of driver lines 622-626, the per-enclosure disk-count
cross-check: `if drivecount != int(enclosure[2])`, where enclosure is the
(EID, Slots, PD) tuple built by get_enclosures, so enclosure[2] is the PD
column value (already an int; the int() around it is the identity).
Returns the updated (ALL_DISKS_OUT_WA, ALL_DISKS_OUT_LONG,
ALL_DISKS_EXIT_CODE).  The long message reproduces the script's literal,
which is not an f-string and therefore contains the brace placeholders
verbatim. -/
def drive_count_check (controller : String) (enclosure : String × ℕ × ℕ)
    (drivecount : ℕ) (disks_out_wa disks_out_long : String)
    (disks_exit_code : ℕ) : String × String × ℕ :=
  if drivecount ≠ enclosure.2.2 then
    (disks_out_wa ++ "/c" ++ controller ++ "/e" ++ enclosure.1 ++ ";",
     disks_out_long
       ++ "WA: Enclosure /c\x7bcontroller\x7d/e\x7benclosure[0]\x7d The disk count found does not correspond with the disk count reported",
     handle_nagios_codes disks_exit_code NAGIOS_WARNING)
  else (disks_out_wa, disks_out_long, disks_exit_code)

/-! ### Device-attribute parser (get_drive_state / ds_get_value, lines
273-311).  The regexes of ds_get_value are implemented as committed greedy
scanners over the character list; for these patterns greedy scanning
coincides with the backtracking regex because each literal is disjoint
from the repeated character class preceding it. -/

/-- A dynamically typed Python value as returned by ds_get_value. -/
inductive PyVal where
  | s (v : String)
  | b (v : Bool)
  | i (v : Int)
deriving DecidableEq

/-- Case-insensitive character comparison (the effect of re.IGNORECASE on
a literal letter). -/
def ciEqChar (a b : Char) : Bool := a.toLower == b.toLower

/-- The temperature guard of ds_get_value (line 292):
match of digits, optional spaces, C, spaces, optional paren, digits, a dot
or comma, digits, optional spaces, F, optional paren — as a prefix match. -/
def temp_pattern (cs : List Char) : Bool :=
  let d1 := cs.takeWhile Char.isDigit
  let r1 := cs.dropWhile Char.isDigit
  if d1.isEmpty then false
  else
    match r1.dropWhile isWs with
    | c :: r3 =>
      if ciEqChar c 'C' then
        let sp := r3.takeWhile isWs
        let r4 := r3.dropWhile isWs
        if sp.isEmpty then false
        else
          let r5 := match r4 with
            | '(' :: t => t
            | _ => r4
          let d2 := r5.takeWhile Char.isDigit
          let r6 := r5.dropWhile Char.isDigit
          if d2.isEmpty then false
          else
            match r6 with
            | c2 :: r7 =>
              if c2 = '.' ∨ c2 = ',' then
                let d3 := r7.takeWhile Char.isDigit
                let r8 := r7.dropWhile Char.isDigit
                if d3.isEmpty then false
                else
                  match r8.dropWhile isWs with
                  | c3 :: _ => ciEqChar c3 'F'
                  | [] => false
              else false
            | [] => false
      else false
    | [] => false

/-- The extraction regex of ds_get_value (line 294) tried at one start
position: group of digits, an optional dot or comma, more digits; then
optional spaces and the unit letter.  Returns group(1). -/
def scan_num_unit (unit : Char) (cs : List Char) : Option (List Char) :=
  let d1 := cs.takeWhile Char.isDigit
  let r1 := cs.dropWhile Char.isDigit
  if d1.isEmpty then none
  else
    let sep_rest : List Char × List Char :=
      match r1 with
      | c :: t => if c = ',' ∨ c = '.' then ([c], t) else ([], r1)
      | [] => ([], r1)
    let d2 := sep_rest.2.takeWhile Char.isDigit
    let r3 := sep_rest.2.dropWhile Char.isDigit
    match r3.dropWhile isWs with
    | c :: _ => if ciEqChar c unit then some (d1 ++ sep_rest.1 ++ d2) else none
    | [] => none

/-- re.search: try every start position left to right. -/
def search_num_unit (unit : Char) : List Char → Option (List Char)
  | [] => none
  | c :: cs =>
    match scan_num_unit unit (c :: cs) with
    | some g => some g
    | none => search_num_unit unit cs

/-- Translation of the inner ds_get_value (lines 287-301), applied to the
already-extracted attribute value (the token right of ' = ', stripped;
the surrounding split is not modelled).  In the temperature branch the
search cannot fail when the guard matched; Python would raise on None and
that dead path is modelled by returning the raw value. -/
def ds_get_value (use_fahrenheit : Bool) (ds_value : String) : PyVal :=
  if temp_pattern ds_value.data then
    let ds_unit : Char := if use_fahrenheit then 'F' else 'C'
    match search_num_unit ds_unit ds_value.data with
    | some g => .s ⟨g⟩
    | none => .s ds_value
  else if ciEq ds_value "yes" then .b true
  else if ciEq ds_value "no" then .b false
  else if ciEq ds_value "N/A" then .i (-99)
  else .s ds_value

/-- Numeric value of a digit string. -/
def digitsVal (cs : List Char) : ℕ :=
  cs.foldl (fun n c => 10 * n + (c.toNat - '0'.toNat)) 0

/-- Partial model of Python float() covering the shapes produced here: an
optional integer part, optionally followed by '.' and a fraction part. -/
def pyFloat (s : String) : Option ℚ :=
  let d1 := s.data.takeWhile Char.isDigit
  let r := s.data.dropWhile Char.isDigit
  match r with
  | [] => if d1.isEmpty then none else some (digitsVal d1)
  | '.' :: t =>
    let d2 := t.takeWhile Char.isDigit
    let r2 := t.dropWhile Char.isDigit
    if !r2.isEmpty then none
    else if d1.isEmpty && d2.isEmpty then none
    else some ((digitsVal d1 : ℚ) + (digitsVal d2 : ℚ) / 10 ^ d2.length)
  | _ => none

/-- float() applied to a ds_get_value result, as the ds_attributes table
does for the Drive Temperature attribute. -/
def coerce_float : PyVal → Option ℚ
  | .s v => pyFloat v
  | .b v => some (if v then 1 else 0)
  | .i v => some v

/-- The drive-temperature attribute pipeline: the declared float coercion
applied to the reduced value. -/
def drive_temperature (use_fahrenheit : Bool) (ds_value : String) : Option ℚ :=
  coerce_float (ds_get_value use_fahrenheit ds_value)

/-! ### Missing-slot detection (detect_empty_slots, lines 313-338; the
missing-drive loop of get_drives, lines 451-458) -/

/-- Probe configuration relevant to the missing-slot logic: the globals
MISSING_OK, MISSING_OK_LIST and SLOT_START set by the argument parser
(driver lines 551-552 and 568-575). -/
structure ProbeConfig where
  missing_ok : Bool
  missing_ok_list : Finset (String × String × String)
  slot_start : ℕ

/-- One iteration of the enumerate loop of detect_empty_slots (lines
325-333) on the state (prev_matched, block, blocks).  The source's
`non_continuous[i-1] == non_cont_slot - 1` is written
`l.getD (i-1) 0 + 1 = x`, which agrees with the Python comparison on every
list of naturals (for x = 0 both are unsatisfiable: Python compares some
element against -1, this asks for a successor equal to 0); Python's
`l[-1]` at i = 0 is never reached because prev_matched is still False
there. -/
def blocks_step (l : List ℕ) (st : Bool × List ℕ × List (List ℕ)) (i : ℕ) :
    Bool × List ℕ × List (List ℕ) :=
  let pm := st.1
  let blk := st.2.1
  let bs := st.2.2
  let x := l.getD i 0
  if i + 1 < l.length ∧ l.getD (i + 1) 0 = x + 1 then (true, blk ++ [x], bs)
  else if pm ∧ l.getD (i - 1) 0 + 1 = x then (false, [], bs ++ [blk ++ [x]])
  else st

/-- The enumerate loop of detect_empty_slots: the collected blocks, i.e.
the stretches of at least two list-adjacent elements in which each element
is its predecessor plus one.  (Only when the list happens to be ascending
are these the runs of consecutive slots.) -/
def blocksLoop (l : List ℕ) : List (List ℕ) :=
  ((List.range l.length).foldl (blocks_step l) (false, [], [])).2.2

/-- The list fed to that loop, `list(set(range(SLOT_START, last+1)) -
full)`, carries CPython's set iteration order, which for these small-int
sets is NOT always ascending; the next definitions model the CPython 3.11
hash table (Objects/setobject.c) for sets of small non-negative ints,
whose hash is the value itself.  The sets whose order the script depends
on are built by insertion only, so deleted (dummy) entries need not be
modelled.  LINEAR_PROBES is setobject.c's probing constant. -/
def PY_LINEAR_PROBES : ℕ := 9

/-- A CPython set hash table: the slot array (its length a power of two,
at least PySet_MINSIZE = 8) and the number of used entries. -/
structure PyTable where
  slots : List (Option ℕ)
  used : ℕ

def emptySlots (n : ℕ) : List (Option ℕ) := List.replicate n none

/-- Overwrite slot i of the table (in-bounds by construction). -/
def slotSet : List (Option ℕ) → ℕ → ℕ → List (Option ℕ)
  | [], _, _ => []
  | _ :: rest, 0, v => some v :: rest
  | s :: rest, n + 1, v => s :: slotSet rest n v

/-- First free slot among i, i+1, ..., i+n-1: the linear chunk that
set_add_entry and set_insert_clean scan before a perturbed jump. -/
def firstFreeIn (t : List (Option ℕ)) (i n : ℕ) : Option ℕ :=
  (List.range n).findSome? (fun j =>
    if t.getD (i + j) none = none then some (i + j) else none)

/-- The probe sequence shared by set_add_entry and set_insert_clean: check
the home slot i and, when i + LINEAR_PROBES ≤ mask, also the next nine
slots; on failure shift perturb right by PERTURB_SHIFT = 5 and jump to
(i*5 + 1 + perturb) & mask.  Fuel bounds the loop; table size + 1 rounds
are never exhausted because the load factor stays below 3/5. -/
def probeFree (t : List (Option ℕ)) : ℕ → ℕ → ℕ → ℕ
  | 0, i, _ => i
  | fuel + 1, i, perturb =>
    let mask := t.length - 1
    let n := if i + PY_LINEAR_PROBES ≤ mask then PY_LINEAR_PROBES + 1 else 1
    match firstFreeIn t i n with
    | some j => j
    | none =>
      let p2 := perturb / 2 ^ 5
      probeFree t fuel ((i * 5 + 1 + p2) % t.length) p2

/-- Place a key that is not yet present: it lands in the first free slot
of its probe sequence, which starts at hash & mask = key mod size. -/
def tablePlace (t : List (Option ℕ)) (key : ℕ) : List (Option ℕ) :=
  slotSet t (probeFree t (t.length + 1) (key % t.length) key) key

/-- Iterating a CPython set yields its entries in slot order. -/
def tableElems (t : List (Option ℕ)) : List ℕ := t.filterMap id

/-- set_table_resize picks the smallest power of two that is at least
PySet_MINSIZE = 8 and strictly greater than minused. -/
def growSize (minused : ℕ) : ℕ → ℕ → ℕ
  | 0, sz => sz
  | fuel + 1, sz => if sz ≤ minused then growSize minused fuel (sz * 2) else sz

/-- The resized table: old entries are reinserted in slot order with
set_insert_clean. -/
def resizeTable (t : List (Option ℕ)) (minused : ℕ) : List (Option ℕ) :=
  (tableElems t).foldl tablePlace (emptySlots (growSize minused 64 8))

/-- set_add_entry for a key that is not yet present: place it, then (fill
being used, there are no dummies) resize to used*4 as soon as
used*5 ≥ mask*3 (these sets stay far below the 50000-entry cutoff). -/
def pySetAdd (st : PyTable) (key : ℕ) : PyTable :=
  let t2 := tablePlace st.slots key
  let used2 := st.used + 1
  if used2 * 5 < (st.slots.length - 1) * 3 then ⟨t2, used2⟩
  else ⟨resizeTable t2 (used2 * 4), used2⟩

/-- set(iterable) over distinct keys: insert them one by one, starting
from the minimal 8-slot table. -/
def pySetOfList (l : List ℕ) : PyTable :=
  l.foldl pySetAdd ⟨emptySlots 8, 0⟩

/-- list(set(range(slot_start, last+1)) - full) under CPython's
set_difference: when len(left) >> 2 > len(right), the left set is copied
(set_merge reproduces its table layout) and the right set's members are
discarded in place, so the left iteration order survives the difference;
otherwise the surviving keys are inserted, in left iteration order, into
a fresh minimal table, whose bucket layout (the value taken mod the small
table size) can reorder them. -/
def pyGapList (slot_start last : ℕ) (full : Finset ℕ) : List ℕ :=
  let leftList := tableElems (pySetOfList
    (List.range' slot_start (last + 1 - slot_start))).slots
  if full.card < (last + 1 - slot_start) / 4 then
    leftList.filter (fun k => decide (k ∉ full))
  else
    tableElems ((leftList.foldl
      (fun acc k => if k ∈ full then acc else pySetAdd acc k)
      (⟨emptySlots 8, 0⟩ : PyTable)).slots)

/-- Translation of detect_empty_slots(empty).  set(range(SLOT_START, 2049))
is Finset.Ico slot_start 2049 (only membership, cardinality, max and
emptiness of full are used, so it stays a Finset, whose own table order
never matters).  `list(set(range(SLOT_START, last+1)) - full)` is
pyGapList above, in CPython set iteration order, on which the block loop
is order-sensitive; list.remove over the oversized blocks is the filter
that drops their members (the list's elements are distinct); Python's
final sorted() is List.insertionSort. -/
def detect_empty_slots (slot_start : ℕ) (empty : Finset ℕ) : List ℕ :=
  let full : Finset ℕ := Finset.Ico slot_start 2049 \ empty
  if full = ∅ then []
  else
    let last : ℕ := full.max.unbot' 0
    let non_continuous : List ℕ := pyGapList slot_start last full
    let removed : List ℕ :=
      ((blocksLoop non_continuous).filter (fun b => 2 < b.length)).flatten
    List.insertionSort (· ≤ ·)
      (non_continuous.filter (fun x => decide (x ∉ removed)))

/-- One iteration of the missing-drive loop of get_drives (lines 451-458)
on the state (pd_exit_code, pd_out_wa, pd_out_long). -/
def missing_slot_step (missing_ok : Bool) (pd_controller pd_enclosure : String)
    (st : ℕ × String × String) (pd_missing : ℕ) : ℕ × String × String :=
  let pd_id := "/c" ++ pd_controller ++ "/e" ++ pd_enclosure ++ "/s"
    ++ toString pd_missing
  if missing_ok then
    (st.1, st.2.1, st.2.2 ++ "OK: PD (Missing) " ++ pd_id ++ "\n")
  else
    (handle_nagios_codes st.1 NAGIOS_WARNING,
     st.2.1 ++ pd_id ++ ";",
     st.2.2 ++ "WA: PD (Missing) " ++ pd_id ++ "\n")

/-- The missing-drive tail of get_drives as a function of the whole
configuration record: the Python reads the globals MISSING_OK (line 453)
and SLOT_START (through detect_empty_slots); MISSING_OK_LIST is in scope
but does not occur in the function. -/
def missing_slot_section (cfg : ProbeConfig) (pd_controller pd_enclosure : String)
    (pd_empty_slots : Finset ℕ) (pd_exit_code : ℕ)
    (pd_out_wa pd_out_long : String) : ℕ × String × String :=
  (detect_empty_slots cfg.slot_start pd_empty_slots).foldl
    (missing_slot_step cfg.missing_ok pd_controller pd_enclosure)
    (pd_exit_code, pd_out_wa, pd_out_long)

/-! ## Theorems -/

/-- Regrouping helper: a concatenation of two known literals can be merged
in front of any tail. -/
theorem string_merge_left (a b c : String) (h : a ++ b = c) (x : String) :
    a ++ (b ++ x) = c ++ x := by
  rw [← String.append_assoc, h]

/-- C1: handle_nagios_codes is total on the four severities (closed under
the lattice), commutative, idempotent, associative, has OK as identity, and
returns whichever argument appears first in the precedence list
[CRITICAL, WARNING, UNKNOWN, OK]. -/
theorem combine_lattice_properties (a b c : ℕ)
    (ha : a ∈ severities) (hb : b ∈ severities) (hc : c ∈ severities) :
    handle_nagios_codes a b ∈ severities ∧
    handle_nagios_codes a b = handle_nagios_codes b a ∧
    handle_nagios_codes a a = a ∧
    handle_nagios_codes a (handle_nagios_codes b c)
      = handle_nagios_codes (handle_nagios_codes a b) c ∧
    handle_nagios_codes a NAGIOS_OK = a ∧
    handle_nagios_codes a b = first_in_precedence a b := by
  fin_cases ha <;> fin_cases hb <;> fin_cases hc <;> decide

/-- Witness for C1 at a = WARNING, b = CRITICAL, c = UNKNOWN. -/
theorem combine_lattice_properties_witness :
    (NAGIOS_WARNING ∈ severities ∧ NAGIOS_CRITICAL ∈ severities ∧
      NAGIOS_UNKNOWN ∈ severities) ∧
    handle_nagios_codes NAGIOS_WARNING NAGIOS_CRITICAL = first_in_precedence NAGIOS_WARNING NAGIOS_CRITICAL :=
  ⟨⟨by decide, by decide, by decide⟩,
    (combine_lattice_properties NAGIOS_WARNING NAGIOS_CRITICAL NAGIOS_UNKNOWN
      (by decide) (by decide) (by decide)).2.2.2.2.2⟩

theorem combine_mem_and_le (a b : ℕ) (ha : a ∈ severities) (hb : b ∈ severities) :
    handle_nagios_codes a b ∈ severities ∧
    sevLE a (handle_nagios_codes a b) ∧ sevLE b (handle_nagios_codes a b) := by
  fin_cases ha <;> fin_cases hb <;> exact ⟨by decide, by decide, by decide⟩

theorem sevLE_trans {a b c : ℕ} (h1 : sevLE a b) (h2 : sevLE b c) : sevLE a c :=
  Nat.le_trans h1 h2

theorem fold_codes_spec (codes : List ℕ) :
    ∀ init, init ∈ severities → (∀ x ∈ codes, x ∈ severities) →
      codes.foldl handle_nagios_codes init ∈ severities ∧
      sevLE init (codes.foldl handle_nagios_codes init) ∧
      ∀ x ∈ codes, sevLE x (codes.foldl handle_nagios_codes init) := by
  induction codes with
  | nil =>
    intro init hinit _
    exact ⟨hinit, Nat.le_refl _, by simp⟩
  | cons c cs ih =>
    intro init hinit hall
    have hc : c ∈ severities := hall c (by simp)
    have hstep := combine_mem_and_le init c hinit hc
    have hrest := ih (handle_nagios_codes init c) hstep.1
      (fun x hx => hall x (List.mem_cons_of_mem _ hx))
    refine ⟨hrest.1, ?_, ?_⟩
    · exact sevLE_trans hstep.2.1 hrest.2.1
    · intro x hx
      rcases List.mem_cons.mp hx with h | h
      · subst h
        exact sevLE_trans hstep.2.2 hrest.2.1
      · exact hrest.2.2 x h

theorem facet_fold_fst_aux (facets : List (ℕ × String × String × String)) :
    ∀ st : ℕ × String,
      (facets.foldl
        (fun st f =>
          let r := handle_final_state st.1 f
          (r.1, st.2 ++ r.2)) st).1
      = (facets.map (fun f => f.1)).foldl handle_nagios_codes st.1 := by
  induction facets with
  | nil => intro st; rfl
  | cons f fs ih => intro st; exact ih _

/-- C5: after the driver's final loop, the aggregated exit code is exactly
the handle_nagios_codes fold (starting from NAGIOS_OK) over the facet exit
codes in order, and is therefore at least as severe as every contributing
facet's code. -/
theorem final_severity_is_fold (facets : List (ℕ × String × String × String))
    (h : ∀ f ∈ facets, f.1 ∈ severities) :
    (facet_fold facets).1
      = (facets.map (fun f => f.1)).foldl handle_nagios_codes NAGIOS_OK ∧
    ∀ f ∈ facets, sevLE f.1 (facet_fold facets).1 := by
  have hfst := facet_fold_fst_aux facets (NAGIOS_OK, "")
  refine ⟨hfst, ?_⟩
  intro f hf
  have hspec := fold_codes_spec (facets.map (fun f => f.1)) NAGIOS_OK (by decide)
    (by
      intro x hx
      obtain ⟨g, hg, rfl⟩ := List.mem_map.mp hx
      exact h g hg)
  have := hspec.2.2 f.1 (List.mem_map.mpr ⟨f, hf, rfl⟩)
  rw [facet_fold, hfst]
  exact this

/-- Witness for C5 on a concrete six-facet list (FC, PDs, HS, VDs, Enc,
Batt) carrying codes (OK, CR, WA, WA, OK, OK). -/
theorem final_severity_is_fold_witness :
    (∀ f ∈ [((NAGIOS_OK : ℕ), ("FC" : String), ("" : String), ("" : String)),
            (NAGIOS_CRITICAL, "PDs", "/c0/e8/s1;", ""),
            (NAGIOS_WARNING, "HS", "", "/c0;"),
            (NAGIOS_WARNING, "VDs", "", "/c0/v0;"),
            (NAGIOS_OK, "Enc", "", ""),
            (NAGIOS_OK, "Batt", "", "")], f.1 ∈ severities) ∧
    sevLE NAGIOS_CRITICAL
      (facet_fold [((NAGIOS_OK : ℕ), ("FC" : String), ("" : String), ("" : String)),
            (NAGIOS_CRITICAL, "PDs", "/c0/e8/s1;", ""),
            (NAGIOS_WARNING, "HS", "", "/c0;"),
            (NAGIOS_WARNING, "VDs", "", "/c0/v0;"),
            (NAGIOS_OK, "Enc", "", ""),
            (NAGIOS_OK, "Batt", "", "")]).1 := by
  refine ⟨by decide, ?_⟩
  exact (final_severity_is_fold _ (by decide)).2
    (NAGIOS_CRITICAL, "PDs", "/c0/e8/s1;", "") (by simp)

/-- C9: the summary contribution of each facet matches the claimed shape:
tag plus the literal "OK;" for a clean facet (nothing at all for a clean
"FC" facet), and tag plus non-empty "CR-"/"WA-" id lists otherwise.  The
hypothesis records the program invariant that a facet whose exit code is
NAGIOS_OK has empty id lists (every checker only appends an id together
with raising its code). -/
theorem summary_line_shape (e sev : ℕ) (tag out out_wa : String)
    (hok : sev = NAGIOS_OK → out = "" ∧ out_wa = "") :
    (handle_final_state e (sev, tag, out, out_wa)).2
      = claim_summary sev tag out out_wa := by
  by_cases hsev : sev = NAGIOS_OK
  · obtain ⟨h1, h2⟩ := hok hsev
    subst h1 h2 hsev
    by_cases htag : tag = "FC"
    · subst htag
      simp [handle_final_state, claim_summary]
    · simp [handle_final_state, claim_summary, htag, String.append_assoc]
  · by_cases h1 : out = "" <;> by_cases h2 : out_wa = "" <;>
      simp [handle_final_state, claim_summary, hsev, h1, h2, String.append_assoc,
        string_merge_left ":" " CR-" ": CR-" (by decide),
        string_merge_left ":" " WA-" ": WA-" (by decide)]

/-- Witness for C9: a clean non-FC facet, a clean FC facet and a facet with
findings, each matching its claimed summary string. -/
theorem summary_line_shape_witness :
    (handle_final_state NAGIOS_OK (NAGIOS_OK, "Enc", "", "")).2 = "Enc: OK; " ∧
    (handle_final_state NAGIOS_OK (NAGIOS_OK, "FC", "", "")).2 = "" ∧
    (handle_final_state NAGIOS_OK (NAGIOS_CRITICAL, "PDs", "/c0/e8/s1;", "/c0/e8/s2;")).2
      = "PDs: CR-/c0/e8/s1; WA-/c0/e8/s2; " := by
  refine ⟨?_, ?_, ?_⟩
  · exact (summary_line_shape NAGIOS_OK NAGIOS_OK "Enc" "" ""
      (fun _ => ⟨rfl, rfl⟩)).trans (by decide)
  · exact (summary_line_shape NAGIOS_OK NAGIOS_OK "FC" "" ""
      (fun _ => ⟨rfl, rfl⟩)).trans (by decide)
  · exact (summary_line_shape NAGIOS_OK NAGIOS_CRITICAL "PDs" "/c0/e8/s1;" "/c0/e8/s2;"
      (fun h => by simp [NAGIOS_CRITICAL, NAGIOS_OK] at h)).trans (by decide)

theorem frl_done (hdr : String → Bool) (ls : List String) :
    ∀ st : Bool × Bool × Bool × List String, st.1 = true →
      ls.foldl (frl_step hdr) st = st := by
  induction ls with
  | nil => intro st _; rfl
  | cons l t ih =>
    intro st h
    obtain ⟨d, sm, sp, acc⟩ := st
    simp only at h
    subst h
    have hstep : frl_step hdr (true, sm, sp, acc) l = (true, sm, sp, acc) := by
      simp [frl_step]
    rw [List.foldl_cons, hstep]
    exact ih _ rfl

theorem frl_after_header (hdr : String → Bool) (ls : List String) :
    ∀ (sp : Bool) (acc : List String),
      (ls.foldl (frl_step hdr) (false, true, sp, acc)).2.2.2
        = acc ++ collectBody sp ls := by
  induction ls with
  | nil => intro sp acc; simp [collectBody]
  | cons l t ih =>
    intro sp acc
    rw [List.foldl_cons]
    by_cases hsep : isSep l = true
    · cases sp with
      | false =>
        have hstep : frl_step hdr (false, true, false, acc) l
            = (false, true, true, acc) := by
          simp [frl_step, hsep]
        rw [hstep, ih true acc]
        simp [collectBody, hsep]
      | true =>
        have hstep : frl_step hdr (false, true, true, acc) l
            = (true, true, true, acc) := by
          simp [frl_step, hsep]
        rw [hstep, frl_done hdr t _ rfl]
        simp [collectBody, hsep]
    · have hsep' : isSep l = false := by
        simpa using hsep
      have hstep : frl_step hdr (false, true, sp, acc) l
          = (false, true, sp, acc ++ [l]) := by
        simp [frl_step, hsep']
      rw [hstep, ih sp (acc ++ [l])]
      simp [collectBody, hsep']

/-- C2 (amended): the extractor equals relevantSpec — it returns every
non-separator line strictly after the first header-matching line and
strictly before the second separator row following that header (all
remaining such lines when fewer than two separator rows follow), and the
empty list whenever no line matches the header.  It is a total function,
so it never raises. -/
theorem section_extractor_behaviour (s : String) (hdr : String → Bool) :
    find_relevant_lines s hdr = relevantSpec hdr (splitNl s) ∧
    ((∀ l ∈ splitNl s, hdr l = false) → find_relevant_lines s hdr = []) := by
  constructor
  · show ((splitNl s).foldl (frl_step hdr) (false, false, false, [])).2.2.2 = _
    generalize splitNl s = ls
    induction ls with
    | nil => rfl
    | cons l t ih =>
      rw [List.foldl_cons]
      by_cases hh : hdr l = true
      · have hstep : frl_step hdr (false, false, false, []) l
            = (false, true, false, []) := by
          simp [frl_step, hh]
        rw [hstep, frl_after_header hdr t false []]
        simp [relevantSpec, List.dropWhile_cons, hh]
      · have hh' : hdr l = false := by simpa using hh
        have hstep : frl_step hdr (false, false, false, []) l
            = (false, false, false, []) := by
          simp [frl_step, hh']
        rw [hstep, ih]
        simp [relevantSpec, List.dropWhile_cons, hh']
  · intro hall
    show ((splitNl s).foldl (frl_step hdr) (false, false, false, [])).2.2.2 = []
    revert hall
    generalize splitNl s = ls
    intro hall
    induction ls with
    | nil => rfl
    | cons l t ih =>
      have hh : hdr l = false := hall l (by simp)
      have hstep : frl_step hdr (false, false, false, []) l
          = (false, false, false, []) := by
        simp [frl_step, hh]
      rw [List.foldl_cons, hstep]
      exact ih (fun x hx => hall x (List.mem_cons_of_mem _ hx))

/-- Witness for C2: on input with no header-matching line the extractor
returns the empty list. -/
theorem section_extractor_behaviour_witness :
    (∀ l ∈ splitNl "a\nb", (fun _ : String => false) l = false) ∧
    find_relevant_lines "a\nb" (fun _ => false) = [] :=
  ⟨fun _ _ => rfl, (section_extractor_behaviour "a\nb" (fun _ => false)).2 (fun _ _ => rfl)⟩

/-- Counterexample for C2 as stated: on "HDR\nX\n-----\nA" only one
separator row follows the header line, so the claim demands the empty
list; the code returns ["X", "A"], and in particular also consumed the
line X that lies between the header and the first separator row. -/
theorem section_extractor_counterexample :
    find_relevant_lines "HDR\nX\n-----\nA"
        (fun l => l.data.take 3 == ['H', 'D', 'R']) = ["X", "A"] ∧
    (["X", "A"] : List String) ≠ [] := by
  exact ⟨by decide, by decide⟩

theorem combine_right_critical (x : ℕ) :
    handle_nagios_codes x NAGIOS_CRITICAL = NAGIOS_CRITICAL := rfl

/-- C4: a drive whose role/state token matches none of the recognised tags
(GHS, DHS, Onln, JBOD, UGood, UGShld, Cpybck, Rbld, all case-insensitive)
is assigned CRITICAL by the role chain, whatever severity the threshold
checks had accumulated: unknown states never pass as healthy. -/
theorem unknown_role_is_critical (ignore_ugood : Bool) (pd_state : ℕ)
    (role : String) (h : ∀ r ∈ known_roles, ciEq role r = false) :
    pd_role_severity ignore_ugood pd_state role = NAGIOS_CRITICAL := by
  have h1 := h "GHS" (by simp [known_roles])
  have h2 := h "DHS" (by simp [known_roles])
  have h3 := h "Onln" (by simp [known_roles])
  have h4 := h "JBOD" (by simp [known_roles])
  have h5 := h "UGood" (by simp [known_roles])
  have h6 := h "UGShld" (by simp [known_roles])
  have h7 := h "Cpybck" (by simp [known_roles])
  have h8 := h "Rbld" (by simp [known_roles])
  simp [pd_role_severity, h1, h2, h3, h4, h5, h6, h7, h8, combine_right_critical]

/-- Witness for C4: the made-up vendor tag "Frob" is not recognised and
yields CRITICAL. -/
theorem unknown_role_is_critical_witness :
    (∀ r ∈ known_roles, ciEq "Frob" r = false) ∧
    pd_role_severity false NAGIOS_OK "Frob" = NAGIOS_CRITICAL :=
  ⟨by decide, unknown_role_is_critical false NAGIOS_OK "Frob" (by decide)⟩

theorem ge_fold_ecode (c : String) (lines : List String) :
    ∀ acc : EncAcc,
      (lines.foldl (get_enclosures_step c) acc).ecode
        = if lines.all (fun l => (splitWs l).getD 1 "" == "OK") then acc.ecode
          else NAGIOS_CRITICAL := by
  induction lines with
  | nil => intro acc; simp
  | cons l t ih =>
    intro acc
    rw [List.foldl_cons, ih, List.all_cons]
    by_cases h : ((splitWs l).getD 1 "" == "OK") = true
    · have heq : (splitWs l).getD 1 "" = "OK" := by simpa using h
      have hstep : (get_enclosures_step c acc l).ecode = acc.ecode := by
        simp only [get_enclosures_step]
        split <;> simp_all
      rw [hstep, h]
      simp
    · have hb : ((splitWs l).getD 1 "" == "OK") = false := by simpa using h
      have hne : ("OK" : String) ≠ (splitWs l).getD 1 "" := by
        intro hh
        rw [← hh] at hb
        simp at hb
      have hstep : (get_enclosures_step c acc l).ecode = NAGIOS_CRITICAL := by
        simp only [get_enclosures_step]
        split <;> simp_all [combine_right_critical]
      rw [hstep, hb]
      simp

/-- C8 (amended): the enclosure checker compares the tokenized state column
against "OK" by case-sensitive string equality: the facet code is
NAGIOS_OK when every row's second token is exactly "OK" and
NAGIOS_CRITICAL otherwise.  (The hypothesis keeps degenerate rows, on
which the script would crash with an IndexError, out of scope.) -/
theorem enclosure_health_case_sensitive (c : String) (lines : List String)
    (_hwf : ∀ l ∈ lines, 2 ≤ (splitWs l).length) :
    (get_enclosures c lines).1
      = if lines.all (fun l => (splitWs l).getD 1 "" == "OK") then NAGIOS_OK
        else NAGIOS_CRITICAL :=
  ge_fold_ecode c lines ⟨NAGIOS_OK, "", "", []⟩

/-- Witness for C8 on a healthy row. -/
theorem enclosure_health_case_sensitive_witness :
    (∀ l ∈ ["8 OK 12 4"], 2 ≤ (splitWs l).length) ∧
    (get_enclosures "0" ["8 OK 12 4"]).1 = NAGIOS_OK :=
  ⟨by decide,
    (enclosure_health_case_sensitive "0" ["8 OK 12 4"] (by decide)).trans (by decide)⟩

/-- Counterexample for C8 as stated: the state token "Ok" differs from
"OK" only in letter case, yet the checker marks the enclosure CRITICAL. -/
theorem enclosure_health_counterexample :
    (get_enclosures "0" ["8 Ok 12 8"]).1 = NAGIOS_CRITICAL ∧
    ciEq "Ok" "OK" = true :=
  ⟨by decide, by decide⟩

/-- C7 (amended): the per-enclosure cross-check compares the observed drive
count with the enclosure's declared physical-drive count — the PD column,
i.e. the fourth token of the enclosure row, stored at tuple position 2 —
not with the declared slot count (third token, tuple position 1); a
mismatch appends a WARNING attributed to /c(controller)/e(EID) to the
physical-drive facet. -/
theorem drive_count_check_uses_pd_column
    (controller line eid st slots_s pd_s : String) (slots pd : ℕ)
    (hsplit : splitWs line = [eid, st, slots_s, pd_s])
    (hslots : parseNat slots_s = slots) (hpd : parseNat pd_s = pd)
    (dc : ℕ) (wa lg : String) (ec : ℕ) :
    (get_enclosures controller [line]).2.1 = [(eid, slots, pd)] ∧
    drive_count_check controller (eid, slots, pd) dc wa lg ec
      = (if dc = pd then (wa, lg, ec)
         else (wa ++ "/c" ++ controller ++ "/e" ++ eid ++ ";",
               lg ++ "WA: Enclosure /c\x7bcontroller\x7d/e\x7benclosure[0]\x7d The disk count found does not correspond with the disk count reported",
               handle_nagios_codes ec NAGIOS_WARNING)) := by
  constructor
  · simp only [get_enclosures, List.foldl_cons, List.foldl_nil, get_enclosures_step,
      hsplit]
    split <;> simp [hslots, hpd]
  · by_cases hdc : dc = pd
    · simp [drive_count_check, hdc]
    · simp [drive_count_check, hdc]

/-- Witness for C7 on the row "8 OK 12 4" (EID 8, 12 slots, 4 drives
reported) with an observed count of 4: matching PD count, no warning. -/
theorem drive_count_check_uses_pd_column_witness :
    splitWs "8 OK 12 4" = ["8", "OK", "12", "4"] ∧
    (get_enclosures "0" ["8 OK 12 4"]).2.1 = [("8", 12, 4)] ∧
    drive_count_check "0" ("8", 12, 4) 4 "" "" NAGIOS_OK = ("", "", NAGIOS_OK) := by
  have h := drive_count_check_uses_pd_column "0" "8 OK 12 4" "8" "OK" "12" "4" 12 4
    (by decide) (by decide) (by decide) 4 "" "" NAGIOS_OK
  refine ⟨by decide, h.1, ?_⟩
  rw [h.2]
  decide

/-- Counterexample for C7 as stated: for the enclosure row "8 OK 12 4" the
declared slot count is 12; an observed drive count of 12 therefore matches
the slot count, yet the check raises a WARNING, because the code compares
against the PD column (4). -/
theorem drive_count_check_counterexample :
    (get_enclosures "0" ["8 OK 12 4"]).2.1 = [("8", 12, 4)] ∧
    (drive_count_check "0" ("8", 12, 4) 12 "" "" NAGIOS_OK).2.2 = NAGIOS_WARNING := by
  exact ⟨by decide, by decide⟩

theorem takeWhile_append_all {α : Type} (p : α → Bool) (l1 l2 : List α)
    (h1 : ∀ x ∈ l1, p x = true) :
    (l1 ++ l2).takeWhile p = l1 ++ l2.takeWhile p := by
  induction l1 with
  | nil => simp
  | cons a t ih =>
    have ha := h1 a (by simp)
    simp [List.takeWhile_cons, ha, ih (fun x hx => h1 x (by simp [hx]))]

theorem dropWhile_append_all {α : Type} (p : α → Bool) (l1 l2 : List α)
    (h1 : ∀ x ∈ l1, p x = true) :
    (l1 ++ l2).dropWhile p = l2.dropWhile p := by
  induction l1 with
  | nil => simp
  | cons a t ih =>
    have ha := h1 a (by simp)
    simp [List.dropWhile_cons, ha, ih (fun x hx => h1 x (by simp [hx]))]

theorem takeWhile_all_eq_self {α : Type} (p : α → Bool) (l : List α)
    (h1 : ∀ x ∈ l, p x = true) : l.takeWhile p = l := by
  have := takeWhile_append_all p l [] h1
  simpa using this

theorem dropWhile_all_eq_nil {α : Type} (p : α → Bool) (l : List α)
    (h1 : ∀ x ∈ l, p x = true) : l.dropWhile p = [] := by
  have := dropWhile_append_all p l [] h1
  simpa using this

theorem isEmpty_false_of_ne_nil {α : Type} {l : List α} (h : l ≠ []) :
    l.isEmpty = false := by
  cases l with
  | nil => exact absurd rfl h
  | cons a t => rfl

theorem temp_pattern_shape (c fi ff : List Char)
    (hc1 : c ≠ []) (hc2 : ∀ x ∈ c, x.isDigit = true)
    (hfi1 : fi ≠ []) (hfi2 : ∀ x ∈ fi, x.isDigit = true)
    (hff1 : ff ≠ []) (hff2 : ∀ x ∈ ff, x.isDigit = true) :
    temp_pattern (c ++ 'C' :: ' ' :: '(' :: (fi ++ '.' :: (ff ++ ['F', ')']))) = true := by
  have hCd : ('C').isDigit = false := by decide
  have hCw : isWs 'C' = false := by decide
  have hSw : isWs ' ' = true := by decide
  have hPw : isWs '(' = false := by decide
  have hDot : ('.').isDigit = false := by decide
  have hFd : ('F').isDigit = false := by decide
  have hFw : isWs 'F' = false := by decide
  have hCc : ciEqChar 'C' 'C' = true := by decide
  have hFc : ciEqChar 'F' 'F' = true := by decide
  have h1 : (c ++ 'C' :: ' ' :: '(' :: (fi ++ '.' :: (ff ++ ['F', ')']))).takeWhile Char.isDigit = c := by
    rw [takeWhile_append_all _ _ _ hc2]
    simp [List.takeWhile_cons, hCd]
  have h2 : (c ++ 'C' :: ' ' :: '(' :: (fi ++ '.' :: (ff ++ ['F', ')']))).dropWhile Char.isDigit
      = 'C' :: ' ' :: '(' :: (fi ++ '.' :: (ff ++ ['F', ')'])) := by
    rw [dropWhile_append_all _ _ _ hc2]
    simp [List.dropWhile_cons, hCd]
  have h3 : (fi ++ '.' :: (ff ++ ['F', ')'])).takeWhile Char.isDigit = fi := by
    rw [takeWhile_append_all _ _ _ hfi2]
    simp [List.takeWhile_cons, hDot]
  have h4 : (fi ++ '.' :: (ff ++ ['F', ')'])).dropWhile Char.isDigit = '.' :: (ff ++ ['F', ')']) := by
    rw [dropWhile_append_all _ _ _ hfi2]
    simp [List.dropWhile_cons, hDot]
  have h5 : (ff ++ ['F', ')']).takeWhile Char.isDigit = ff := by
    rw [takeWhile_append_all _ _ _ hff2]
    simp [List.takeWhile_cons, hFd]
  have h6 : (ff ++ ['F', ')']).dropWhile Char.isDigit = ['F', ')'] := by
    rw [dropWhile_append_all _ _ _ hff2]
    simp [List.dropWhile_cons, hFd]
  simp [temp_pattern, h1, h2, h3, h4, h5, h6,
    isEmpty_false_of_ne_nil hc1, isEmpty_false_of_ne_nil hfi1, isEmpty_false_of_ne_nil hff1,
    List.dropWhile_cons, List.takeWhile_cons, hCw, hSw, hPw, hFw, hCc, hFc]

theorem scan_none_nondigit (unit a : Char) (ha : a.isDigit = false) (r : List Char) :
    scan_num_unit unit (a :: r) = none := by
  simp [scan_num_unit, List.takeWhile_cons, ha]

theorem search_cons_none (unit a : Char) (r : List Char)
    (h : scan_num_unit unit (a :: r) = none) :
    search_num_unit unit (a :: r) = search_num_unit unit r := by
  rw [search_num_unit, h]

theorem scan_at_digits_C_none (unit : Char) (hunit : ciEqChar 'C' unit = false)
    (d : List Char) (hd : ∀ x ∈ d, x.isDigit = true) (r : List Char) :
    scan_num_unit unit (d ++ 'C' :: r) = none := by
  have hCd : ('C').isDigit = false := by decide
  have hCw : isWs 'C' = false := by decide
  have hCs : (('C' = ',') ∨ ('C' = '.')) = False := by simp
  cases d with
  | nil =>
    simp [scan_num_unit, List.takeWhile_cons, hCd]
  | cons a t =>
    have h1 : ((a :: t) ++ 'C' :: r).takeWhile Char.isDigit = a :: t := by
      rw [takeWhile_append_all _ _ _ hd]
      simp [List.takeWhile_cons, hCd]
    have h2 : ((a :: t) ++ 'C' :: r).dropWhile Char.isDigit = 'C' :: r := by
      rw [dropWhile_append_all _ _ _ hd]
      simp [List.dropWhile_cons, hCd]
    unfold scan_num_unit
    rw [h1, h2]
    simp [List.takeWhile_cons, List.dropWhile_cons, hCd, hCw, hunit]

theorem search_skip_digits (unit : Char) (hunit : ciEqChar 'C' unit = false)
    (d : List Char) (hd : ∀ x ∈ d, x.isDigit = true) (r : List Char) :
    search_num_unit unit (d ++ 'C' :: r) = search_num_unit unit ('C' :: r) := by
  induction d with
  | nil => rfl
  | cons a t ih =>
    have hd' : ∀ x ∈ t, x.isDigit = true := fun x hx => hd x (by simp [hx])
    have hscan := scan_at_digits_C_none unit hunit (a :: t) hd r
    simp only [List.cons_append] at hscan ⊢
    rw [search_cons_none unit a (t ++ 'C' :: r) hscan]
    exact ih hd'

theorem scanC_full (c : List Char) (hc1 : c ≠ [])
    (hc2 : ∀ x ∈ c, x.isDigit = true) (r : List Char) :
    scan_num_unit 'C' (c ++ 'C' :: r) = some c := by
  have hCd : ('C').isDigit = false := by decide
  have hCw : isWs 'C' = false := by decide
  have hCc : ciEqChar 'C' 'C' = true := by decide
  have h1 : (c ++ 'C' :: r).takeWhile Char.isDigit = c := by
    rw [takeWhile_append_all _ _ _ hc2]
    simp [List.takeWhile_cons, hCd]
  have h2 : (c ++ 'C' :: r).dropWhile Char.isDigit = 'C' :: r := by
    rw [dropWhile_append_all _ _ _ hc2]
    simp [List.dropWhile_cons, hCd]
  simp [scan_num_unit, h1, h2, isEmpty_false_of_ne_nil hc1,
    List.takeWhile_cons, List.dropWhile_cons, hCd, hCw, hCc]

theorem scanF_at_fi (fi ff : List Char) (hfi1 : fi ≠ [])
    (hfi2 : ∀ x ∈ fi, x.isDigit = true) (hff2 : ∀ x ∈ ff, x.isDigit = true)
    (r : List Char) :
    scan_num_unit 'F' (fi ++ '.' :: (ff ++ 'F' :: r)) = some (fi ++ '.' :: ff) := by
  have hDot : ('.').isDigit = false := by decide
  have hFd : ('F').isDigit = false := by decide
  have hFw : isWs 'F' = false := by decide
  have hFc : ciEqChar 'F' 'F' = true := by decide
  have h1 : (fi ++ '.' :: (ff ++ 'F' :: r)).takeWhile Char.isDigit = fi := by
    rw [takeWhile_append_all _ _ _ hfi2]
    simp [List.takeWhile_cons, hDot]
  have h2 : (fi ++ '.' :: (ff ++ 'F' :: r)).dropWhile Char.isDigit
      = '.' :: (ff ++ 'F' :: r) := by
    rw [dropWhile_append_all _ _ _ hfi2]
    simp [List.dropWhile_cons, hDot]
  have h3 : (ff ++ 'F' :: r).takeWhile Char.isDigit = ff := by
    rw [takeWhile_append_all _ _ _ hff2]
    simp [List.takeWhile_cons, hFd]
  have h4 : (ff ++ 'F' :: r).dropWhile Char.isDigit = 'F' :: r := by
    rw [dropWhile_append_all _ _ _ hff2]
    simp [List.dropWhile_cons, hFd]
  simp [scan_num_unit, h1, h2, h3, h4, isEmpty_false_of_ne_nil hfi1,
    List.dropWhile_cons, hFw, hFc]

theorem pyFloat_digits (d : List Char) (hd1 : d ≠ [])
    (hd2 : ∀ x ∈ d, x.isDigit = true) :
    pyFloat ⟨d⟩ = some (digitsVal d) := by
  have h1 : d.takeWhile Char.isDigit = d := takeWhile_all_eq_self _ _ hd2
  have h2 : d.dropWhile Char.isDigit = [] := dropWhile_all_eq_nil _ _ hd2
  simp [pyFloat, h1, h2, isEmpty_false_of_ne_nil hd1]

theorem pyFloat_decimal (fi ff : List Char) (hfi1 : fi ≠ [])
    (hfi2 : ∀ x ∈ fi, x.isDigit = true) (hff2 : ∀ x ∈ ff, x.isDigit = true) :
    pyFloat ⟨fi ++ '.' :: ff⟩
      = some ((digitsVal fi : ℚ) + (digitsVal ff : ℚ) / 10 ^ ff.length) := by
  have hDot : ('.').isDigit = false := by decide
  have h1 : (fi ++ '.' :: ff).takeWhile Char.isDigit = fi := by
    rw [takeWhile_append_all _ _ _ hfi2]
    simp [List.takeWhile_cons, hDot]
  have h2 : (fi ++ '.' :: ff).dropWhile Char.isDigit = '.' :: ff := by
    rw [dropWhile_append_all _ _ _ hfi2]
    simp [List.dropWhile_cons, hDot]
  have h3 : ff.takeWhile Char.isDigit = ff := takeWhile_all_eq_self _ _ hff2
  have h4 : ff.dropWhile Char.isDigit = [] := dropWhile_all_eq_nil _ _ hff2
  simp [pyFloat, h1, h2, h3, h4, isEmpty_false_of_ne_nil hfi1]

/-- C6: a temperature attribute value of the form "<int>C (<float>F)" is
reduced by the attribute parser to the single numeric reading of the
configured unit, dropping the other unit's reading: the Celsius digits in
Celsius mode and the Fahrenheit decimal in Fahrenheit mode. -/
theorem temperature_coercion (v : String) (c fi ff : List Char)
    (hv : v.data = c ++ 'C' :: ' ' :: '(' :: (fi ++ '.' :: (ff ++ ['F', ')'])))
    (hc1 : c ≠ []) (hc2 : ∀ x ∈ c, x.isDigit = true)
    (hfi1 : fi ≠ []) (hfi2 : ∀ x ∈ fi, x.isDigit = true)
    (hff1 : ff ≠ []) (hff2 : ∀ x ∈ ff, x.isDigit = true) :
    drive_temperature false v = some ((digitsVal c : ℚ)) ∧
    drive_temperature true v
      = some ((digitsVal fi : ℚ) + (digitsVal ff : ℚ) / 10 ^ ff.length) := by
  have hpat := temp_pattern_shape c fi ff hc1 hc2 hfi1 hfi2 hff1 hff2
  have hCF : ciEqChar 'C' 'F' = false := by decide
  have hC : search_num_unit 'C'
      (c ++ 'C' :: ' ' :: '(' :: (fi ++ '.' :: (ff ++ ['F', ')']))) = some c := by
    cases c with
    | nil => exact absurd rfl hc1
    | cons a t =>
      have hscan := scanC_full (a :: t) (by simp) hc2
        (' ' :: '(' :: (fi ++ '.' :: (ff ++ ['F', ')'])))
      simp only [List.cons_append] at hscan ⊢
      rw [search_num_unit, hscan]
  have hF : search_num_unit 'F'
      (c ++ 'C' :: ' ' :: '(' :: (fi ++ '.' :: (ff ++ ['F', ')'])))
      = some (fi ++ '.' :: ff) := by
    rw [search_skip_digits 'F' hCF c hc2]
    have hCscan : scan_num_unit 'F'
        ('C' :: ' ' :: '(' :: (fi ++ '.' :: (ff ++ ['F', ')']))) = none :=
      scan_none_nondigit 'F' 'C' (by decide) _
    have hSscan : scan_num_unit 'F'
        (' ' :: '(' :: (fi ++ '.' :: (ff ++ ['F', ')']))) = none :=
      scan_none_nondigit 'F' ' ' (by decide) _
    have hPscan : scan_num_unit 'F'
        ('(' :: (fi ++ '.' :: (ff ++ ['F', ')']))) = none :=
      scan_none_nondigit 'F' '(' (by decide) _
    rw [search_cons_none _ _ _ hCscan, search_cons_none _ _ _ hSscan,
      search_cons_none _ _ _ hPscan]
    cases fi with
    | nil => exact absurd rfl hfi1
    | cons a t =>
      have hscan := scanF_at_fi (a :: t) ff (by simp) hfi2 hff2 [')']
      simp only [List.cons_append] at hscan ⊢
      rw [search_num_unit]
      rw [show (ff ++ ['F', ')']) = (ff ++ 'F' :: [')']) from rfl] at *
      rw [hscan]
  constructor
  · have hds : ds_get_value false v = PyVal.s ⟨c⟩ := by
      unfold ds_get_value
      rw [hv, hpat]
      simp [hC]
    rw [drive_temperature, hds]
    exact pyFloat_digits c hc1 hc2
  · have hds : ds_get_value true v = PyVal.s ⟨fi ++ '.' :: ff⟩ := by
      unfold ds_get_value
      rw [hv, hpat]
      simp [hF]
    rw [drive_temperature, hds]
    exact pyFloat_decimal fi ff hfi1 hfi2 hff2

/-- Witness for C6: "45C (113.00F)" yields 45 in Celsius mode and 113.0 in
Fahrenheit mode. -/
theorem temperature_coercion_witness :
    ("45C (113.00F)" : String).data
      = ['4','5'] ++ 'C' :: ' ' :: '(' :: (['1','1','3'] ++ '.' :: (['0','0'] ++ ['F', ')'])) ∧
    drive_temperature false "45C (113.00F)" = some 45 ∧
    drive_temperature true "45C (113.00F)" = some (113 : ℚ) := by
  have h := temperature_coercion "45C (113.00F)" ['4','5'] ['1','1','3'] ['0','0']
    (by decide) (by decide) (by decide) (by decide) (by decide) (by decide) (by decide)
  have hv1 : digitsVal ['4','5'] = 45 := by decide
  have hv2 : digitsVal ['1','1','3'] = 113 := by decide
  have hv3 : digitsVal ['0','0'] = 0 := by decide
  refine ⟨by decide, ?_, ?_⟩
  · rw [h.1, hv1]
    norm_num
  · rw [h.2, hv2, hv3]
    norm_num

theorem combine_wa_of_ne (x : ℕ) (h : x ≠ 2) :
    handle_nagios_codes x NAGIOS_WARNING = 1 := by
  have hb : (2 == x) = false := by
    simp [Nat.beq_eq_true_eq]
    omega
  simp [handle_nagios_codes, NAGIOS_ORDER, NAGIOS_WARNING, NAGIOS_CRITICAL,
    NAGIOS_UNKNOWN, NAGIOS_OK, List.find?, hb]

theorem combine_wa_twice (x : ℕ) :
    handle_nagios_codes (handle_nagios_codes x NAGIOS_WARNING) NAGIOS_WARNING
      = handle_nagios_codes x NAGIOS_WARNING := by
  by_cases h : x = 2
  · subst h
    rfl
  · rw [combine_wa_of_ne x h, combine_wa_of_ne 1 (by omega)]

theorem missing_fold (mok : Bool) (c e : String) (ms : List ℕ) :
    ∀ (ec : ℕ) (wa lg : String),
      ((ms.foldl (missing_slot_step mok c e) (ec, wa, lg)).1
        = if mok = true ∨ ms = [] then ec
          else handle_nagios_codes ec NAGIOS_WARNING) ∧
      ((ms.foldl (missing_slot_step mok c e) (ec, wa, lg)).2.1
        = if mok = true then wa
          else ms.foldl (fun acc m =>
            acc ++ ("/c" ++ c ++ "/e" ++ e ++ "/s" ++ toString m ++ ";")) wa) := by
  induction ms with
  | nil =>
    intro ec wa lg
    constructor
    · simp
    · simp
  | cons m t ih =>
    intro ec wa lg
    cases mok with
    | true =>
      have hstep : missing_slot_step true c e (ec, wa, lg) m
          = (ec, wa, lg ++ "OK: PD (Missing) "
              ++ ("/c" ++ c ++ "/e" ++ e ++ "/s" ++ toString m) ++ "\n") := by
        simp [missing_slot_step]
      rw [List.foldl_cons, hstep]
      have hrest := ih ec wa (lg ++ "OK: PD (Missing) "
        ++ ("/c" ++ c ++ "/e" ++ e ++ "/s" ++ toString m) ++ "\n")
      constructor
      · rw [hrest.1]
        simp
      · rw [hrest.2]
        simp
    | false =>
      have hstep : missing_slot_step false c e (ec, wa, lg) m
          = (handle_nagios_codes ec NAGIOS_WARNING,
             wa ++ ("/c" ++ c ++ "/e" ++ e ++ "/s" ++ toString m) ++ ";",
             lg ++ "WA: PD (Missing) "
              ++ ("/c" ++ c ++ "/e" ++ e ++ "/s" ++ toString m) ++ "\n") := by
        simp [missing_slot_step]
      rw [List.foldl_cons, hstep]
      have hrest := ih (handle_nagios_codes ec NAGIOS_WARNING)
        (wa ++ ("/c" ++ c ++ "/e" ++ e ++ "/s" ++ toString m) ++ ";")
        (lg ++ "WA: PD (Missing) "
          ++ ("/c" ++ c ++ "/e" ++ e ++ "/s" ++ toString m) ++ "\n")
      constructor
      · rw [hrest.1]
        by_cases ht : t = []
        · simp [ht]
        · simp [ht, combine_wa_twice]
      · rw [hrest.2]
        simp only [Bool.false_eq_true, false_or, if_false, reduceIte]
        rw [List.foldl_cons]
        congr 1
        simp [String.append_assoc]

/-- C10: the parsed missing-ok allow-list is never read: the missing-slot
handling yields identical exit-code, WA-identifier and long-output results
for any two values of missing_ok_list, so an individually listed
controller:enclosure:slot triple is never exempted; when the global
missing-ok flag is off, every detected slot still contributes its WA
identifier. -/
theorem missing_ok_list_never_read (cfg : ProbeConfig)
    (l1 l2 : Finset (String × String × String)) (c e : String)
    (empty : Finset ℕ) (ec : ℕ) (wa lg : String) :
    missing_slot_section { cfg with missing_ok_list := l1 } c e empty ec wa lg
      = missing_slot_section { cfg with missing_ok_list := l2 } c e empty ec wa lg ∧
    (cfg.missing_ok = false →
      (missing_slot_section { cfg with missing_ok_list := l1 } c e empty ec wa lg).2.1
        = (detect_empty_slots cfg.slot_start empty).foldl
            (fun acc m =>
              acc ++ ("/c" ++ c ++ "/e" ++ e ++ "/s" ++ toString m ++ ";")) wa) := by
  constructor
  · rfl
  · intro hmok
    have hsec : missing_slot_section { cfg with missing_ok_list := l1 } c e empty ec wa lg
        = (detect_empty_slots cfg.slot_start empty).foldl
            (missing_slot_step false c e) (ec, wa, lg) := by
      show (detect_empty_slots cfg.slot_start empty).foldl
        (missing_slot_step cfg.missing_ok c e) (ec, wa, lg) = _
      rw [hmok]
    rw [hsec, (missing_fold false c e (detect_empty_slots cfg.slot_start empty) ec wa lg).2]
    simp

/-- Witness for C10: the triple ("0","1","2041") is individually listed in
the allow-list, slot 2041 is missing, and it is still flagged; exchanging
the allow-list for the empty one changes nothing. -/
theorem missing_ok_list_never_read_witness :
    ("0", "1", "2041") ∈ ({("0", "1", "2041")} : Finset (String × String × String)) ∧
    missing_slot_section ⟨false, {("0", "1", "2041")}, 2040⟩ "0" "1"
        (Finset.Ico 2040 2049 \ ({2040, 2042} : Finset ℕ)) NAGIOS_OK "" ""
      = missing_slot_section ⟨false, ∅, 2040⟩ "0" "1"
        (Finset.Ico 2040 2049 \ ({2040, 2042} : Finset ℕ)) NAGIOS_OK "" "" ∧
    (missing_slot_section ⟨false, {("0", "1", "2041")}, 2040⟩ "0" "1"
        (Finset.Ico 2040 2049 \ ({2040, 2042} : Finset ℕ)) NAGIOS_OK "" "").2.1
      = "/c0/e1/s2041;" := by
  refine ⟨by decide, ?_, ?_⟩
  · exact (missing_ok_list_never_read ⟨false, ∅, 2040⟩ {("0", "1", "2041")} ∅ "0" "1"
      (Finset.Ico 2040 2049 \ ({2040, 2042} : Finset ℕ)) NAGIOS_OK "" "").1
  · have h := (missing_ok_list_never_read ⟨false, ∅, 2040⟩ {("0", "1", "2041")} ∅ "0" "1"
      (Finset.Ico 2040 2049 \ ({2040, 2042} : Finset ℕ)) NAGIOS_OK "" "").2 rfl
    exact h.trans (by decide)

set_option maxRecDepth 40000 in
/-- C3: evaluation at the failing input, slot start 0 with drives observed
in slots 0-5 and 9.  The claimed run rule — matching the script's own -m
help text, "Missing drives in of 3 or more drives in a row are detected
as OK" — requires the length-3 gap 6,7,8 to be suppressed; but CPython
enumerates the gap set as [8, 6, 7] (8 lands in bucket 0 of the fresh
8-slot table), the order-sensitive block loop only collects the block
[6, 7], no block exceeds length 2, so nothing is removed and the program
flags all three slots; with missing-ok off the facet exit code degrades
to WARNING. -/
theorem missing_slot_run_bug :
    pyGapList 0 9 ({0, 1, 2, 3, 4, 5, 9} : Finset ℕ) = [8, 6, 7] ∧
    detect_empty_slots 0
        (Finset.Ico 0 2049 \ ({0, 1, 2, 3, 4, 5, 9} : Finset ℕ))
      = [6, 7, 8] ∧
    (missing_slot_section ⟨false, ∅, 0⟩ "0" "1"
        (Finset.Ico 0 2049 \ ({0, 1, 2, 3, 4, 5, 9} : Finset ℕ))
        NAGIOS_OK "" "").1 = NAGIOS_WARNING :=
  ⟨by decide, by decide, by decide⟩
